import Mathlib

/-!
Shallow embedding of the `overseer` crate (src/overseer/src/lib.rs).

The crate implements a supervising coordinator (`Overseer`) for cooperative
worker tasks ("subsystems"): it owns a table of subsystem records keyed by id,
drains each worker's outbound channel every tick, dispatches each envelope
(broadcast, direct, or spawn request), records parent/child links for runtime
spawns, and panics when any worker task completes.

Modelling conventions:
  * `mpsc` channels are FIFO queues modelled as lists (`send` appends, the
    reader consumes from the front); channel capacity / backpressure is not
    modelled since no claim depends on it.
  * `HashMap` is modelled as an association list (`assocGet` / `assocInsert` /
    `assocUpdate`) with the map's unspecified-but-stable iteration order being
    the list order; `insert` replaces the value of an existing key in place.
  * `HashSet<I>` is modelled as a duplicate-free list with `hsInsert`.
  * Sends performed by the routing loop (`i.tx.send(m).await` and
    `res.send(s)`) are additionally recorded as `Event`s, so that delivery
    counts and delivery order can be stated.
  * The external executor (`S : Spawn`) is abstracted by the boolean field
    `spawnOk`: `spawn_with_handle` succeeds iff it is `true`.  A panic
    (`expect` in `Overseer::spawn`, or the `panic!` in the watch step of
    `Overseer::run`) is modelled as the `Except.error` branch carrying a
    `PanicReason`.
  * A spawned task's future is abstracted by the flag
    `Subsystem.taskCompleted`: whether the `RemoteHandle` pushed into
    `running_subsystems` reports completion when polled.  Polling the
    `FuturesUnordered` completion queue returns a ready element iff some
    handle has completed.
-/

/-- The unit error type of the crate (`pub struct SubsystemError;`). -/
inductive SubsystemError : Type where
  | mk
deriving DecidableEq, Repr

/-- The error raised by a channel `send` when the receiving end was dropped. -/
inductive SendError : Type where
  | closed
deriving DecidableEq, Repr

/-- Reasons the supervisor panics (`expect` in `spawn`, `panic!` in `run`). -/
inductive PanicReason : Type where
  | executorSpawnFailure
  | subsystemFinished
deriving DecidableEq, Repr

/-- The `Subsystem` trait object, as the supervisor uses it.  `canRecvMsg` is
the inbound filter (`fn can_recv_msg`).  `start` produces an opaque future;
the only supervisor-visible aspect of that future is whether it has completed
when the completion queue is polled, abstracted by `taskCompleted`. -/
structure Subsystem (M I : Type) where
  canRecvMsg : M → Bool
  taskCompleted : Bool

/-- `enum OverseerMessage<M, I>`: an envelope a worker sends to the
supervisor.  The `res: oneshot::Sender` of `SpawnChild` is modelled by the
`Event.reply` emitted when the supervisor fulfils it. -/
inductive OverseerMessage (M I : Type) where
  | subsystemMessage (toId : Option I) (msg : M)
  | spawnChild (s : I × Subsystem M I)

/-- `struct SubsystemInstance`: the supervisor-side channel endpoints of a
running worker.  `rx` is the worker→supervisor queue the supervisor drains;
`tx` is the supervisor→worker queue the supervisor appends to. -/
structure SubsystemInstance (M I : Type) where
  rx : List (OverseerMessage M I)
  tx : List M

/-- `struct OverseenSubsystem`: a record pairing the worker value with its
optional running instance (`inst` models the field `instance`). -/
structure OverseenSubsystem (M I : Type) where
  subsystem : Subsystem M I
  inst : Option (SubsystemInstance M I)

/-- `struct Overseer`.  `subsystems` and `id_to_children` are the two hash
maps; `spawnOk` abstracts the executor capability `s: S`;
`running_subsystems` holds the completion flag of each pushed task handle. -/
structure Overseer (M I : Type) where
  subsystems : List (I × OverseenSubsystem M I)
  id_to_children : List (I × List I)
  spawnOk : Bool
  running_subsystems : List Bool

/-- `HashMap` lookup on the association-list model. -/
def assocGet {I A : Type} [DecidableEq I] : List (I × A) → I → Option A
  | [], _ => none
  | (k', v) :: t, k => if k = k' then some v else assocGet t k

/-- `HashMap::insert`: replace in place when the key exists, append otherwise. -/
def assocInsert {I A : Type} [DecidableEq I] : List (I × A) → I → A → List (I × A)
  | [], k, v => [(k, v)]
  | (k', v') :: t, k, v =>
    if k = k' then (k, v) :: t else (k', v') :: assocInsert t k v

/-- `HashMap::get_mut` followed by mutation: update the value at a key. -/
def assocUpdate {I A : Type} [DecidableEq I] : List (I × A) → I → (A → A) → List (I × A)
  | [], _, _ => []
  | (k', v) :: t, k, f =>
    if k = k' then (k', f v) :: t else (k', v) :: assocUpdate t k f

/-- `HashSet::insert` on the duplicate-free-list model. -/
def hsInsert {I : Type} [DecidableEq I] (s : List I) (x : I) : List I :=
  if x ∈ s then s else s ++ [x]

/-- A single `send` on a bounded mpsc channel: fails when the receiver was
dropped, otherwise appends to the queue. -/
def mpscSend {A : Type} (closed : Bool) (q : List A) (x : A) :
    Except SendError (List A) :=
  if closed then .error .closed else .ok (q ++ [x])

/-- `struct SubsystemContext`: the worker-side handle.  `rx` is the inbound
queue, `tx` the outbound queue; `txClosed` records whether the supervisor has
dropped the matching receiver (the channel-closed condition). -/
structure SubsystemContext (M I : Type) where
  rx : List M
  tx : List (OverseerMessage M I)
  txClosed : Bool

/-- `SubsystemContext::send_msg`: enqueue a broadcast envelope; the result of
the underlying channel send is discarded (`let _ = self.tx.send(..)`), so a
closed channel leaves the context unchanged and no error escapes. -/
def SubsystemContext.send_msg {M I : Type} (ctx : SubsystemContext M I)
    (msg : M) : SubsystemContext M I :=
  match mpscSend ctx.txClosed ctx.tx (.subsystemMessage none msg) with
  | .ok q => { ctx with tx := q }
  | .error _ => ctx

/-- `SubsystemContext::send_msg_to`: enqueue a direct envelope; the send
result is discarded exactly as in `send_msg`. -/
def SubsystemContext.send_msg_to {M I : Type} (ctx : SubsystemContext M I)
    (toId : I) (msg : M) : SubsystemContext M I :=
  match mpscSend ctx.txClosed ctx.tx (.subsystemMessage (some toId) msg) with
  | .ok q => { ctx with tx := q }
  | .error _ => ctx

/-- `SubsystemContext::spawn`: enqueue a `SpawnChild` envelope (send result
discarded), then await the oneshot reply.  `reply` is the value the oneshot
receiver yields: `none` models the sender having been dropped (`Canceled`),
in which case `rx.await.unwrap_or_else(|_| Err(SubsystemError))` produces the
error. -/
def SubsystemContext.spawn {M I : Type} (ctx : SubsystemContext M I)
    (s : I × Subsystem M I) (reply : Option (Except SubsystemError I)) :
    SubsystemContext M I × Except SubsystemError I :=
  let ctx' :=
    match mpscSend ctx.txClosed ctx.tx (.spawnChild s) with
    | .ok q => { ctx with tx := q }
    | .error _ => ctx
  (ctx', match reply with
    | some r => r
    | none => .error SubsystemError.mk)

instance {E A : Type} [DecidableEq E] [DecidableEq A] :
    DecidableEq (Except E A) := fun x y =>
  match x, y with
  | .ok a, .ok b => decidable_of_iff (a = b) (by simp)
  | .error a, .error b => decidable_of_iff (a = b) (by simp)
  | .ok _, .error _ => isFalse (by simp)
  | .error _, .ok _ => isFalse (by simp)

/-- An observable action of the routing loop: a payload pushed into a
record's inbound channel (`i.tx.send(m).await`, tagged with the source id),
or a spawn reply fulfilled (`res.send(s)`, tagged with the requesting id). -/
inductive Event (M I : Type) where
  | deliver (src toId : I) (msg : M)
  | reply (src : I) (res : Except SubsystemError I)
deriving DecidableEq

/-- `Overseer::spawn`: allocate fresh channels (empty queues), build the
context, call `start`, submit the task to the executor (`spawn_with_handle`
+ `expect`, which panics when the executor cannot spawn), push the handle,
insert the record — replacing any record already stored under the id — and
return `Ok(s.0)`. -/
def Overseer.spawn {M I : Type} [DecidableEq I] (st : Overseer M I)
    (s : I × Subsystem M I) : Except PanicReason (Overseer M I × I) :=
  if st.spawnOk then
    .ok ({ st with
            subsystems := assocInsert st.subsystems s.1
              ⟨s.2, some ⟨[], []⟩⟩,
            running_subsystems :=
              st.running_subsystems ++ [s.2.taskCompleted] }, s.1)
  else
    .error .executorSpawnFailure

/-- The broadcast arm of the dispatch step (`to = None`): walk the table in
order, skip the sender (`if msg.0 == *id { continue; }`), consult
`can_recv_msg`, and for a passing record with a live instance clone the
payload into its inbound queue, emitting a `deliver` event. -/
def broadcastDeliver {M I : Type} [DecidableEq I] (src : I) (m : M) :
    List (I × OverseenSubsystem M I) →
    List (I × OverseenSubsystem M I) × List (Event M I)
  | [] => ([], [])
  | (id, s) :: t =>
    let r := broadcastDeliver src m t
    if src = id then ((id, s) :: r.1, r.2)
    else if s.subsystem.canRecvMsg m then
      match s.inst with
      | some i =>
        ((id, { s with inst := some { i with tx := i.tx ++ [m] } }) :: r.1,
          .deliver src id m :: r.2)
      | none => ((id, s) :: r.1, r.2)
    else ((id, s) :: r.1, r.2)

/-- The direct arm of the dispatch step (`to = Some(target)`): look the
target up (`get_mut`); when a record with a live instance exists, push the
payload into its inbound queue; an unknown target falls through silently. -/
def directDeliver {M I : Type} [DecidableEq I] (src toId : I) (m : M) :
    List (I × OverseenSubsystem M I) →
    List (I × OverseenSubsystem M I) × List (Event M I)
  | [] => ([], [])
  | (id, s) :: t =>
    if toId = id then
      match s.inst with
      | some i =>
        ((id, { s with inst := some { i with tx := i.tx ++ [m] } }) :: t,
          [.deliver src toId m])
      | none => ((id, s) :: t, [])
    else
      let r := directDeliver src toId m t
      ((id, s) :: r.1, r.2)

/-- Dispatch of one collected envelope `(src, msg)`.  For `SpawnChild` the
supervisor runs `Overseer::spawn`, and on success updates `id_to_children`
exactly as the source does: when the parent already has an entry the code
inserts `msg.0` (the parent id) into it, and only the fresh-entry branch
inserts the child id; finally the reply is fulfilled with the spawn result. -/
def dispatchOne {M I : Type} [DecidableEq I] (st : Overseer M I) (src : I) :
    OverseerMessage M I →
    Except PanicReason (Overseer M I × List (Event M I))
  | .subsystemMessage (some toId) m =>
    let r := directDeliver src toId m st.subsystems
    .ok ({ st with subsystems := r.1 }, r.2)
  | .subsystemMessage none m =>
    let r := broadcastDeliver src m st.subsystems
    .ok ({ st with subsystems := r.1 }, r.2)
  | .spawnChild s =>
    match st.spawn s with
    | .error r => .error r
    | .ok (st', id) =>
      let children :=
        match assocGet st'.id_to_children src with
        | some _ => assocUpdate st'.id_to_children src (fun v => hsInsert v src)
        | none => assocInsert st'.id_to_children src (hsInsert [] id)
      .ok ({ st' with id_to_children := children }, [.reply src (.ok id)])

/-- Dispatch the whole batch in order, concatenating the emitted events; a
panic inside any element aborts the loop. -/
def dispatchBatch {M I : Type} [DecidableEq I] (st : Overseer M I) :
    List (I × OverseerMessage M I) →
    Except PanicReason (Overseer M I × List (Event M I))
  | [] => .ok (st, [])
  | (src, msg) :: t =>
    match dispatchOne st src msg with
    | .error r => .error r
    | .ok (st', es) =>
      match dispatchBatch st' t with
      | .error r => .error r
      | .ok (st'', es') => .ok (st'', es ++ es')

/-- The collect step of a tick: walk every record in table order and drain
its outbound channel non-blockingly (everything currently queued), tagging
each envelope with the record's id. -/
def collect {M I : Type} :
    List (I × OverseenSubsystem M I) →
    List (I × OverseenSubsystem M I) × List (I × OverseerMessage M I)
  | [] => ([], [])
  | (id, s) :: t =>
    let r := collect t
    match s.inst with
    | some i =>
      ((id, { s with inst := some { i with rx := [] } }) :: r.1,
        i.rx.map (fun msg => (id, msg)) ++ r.2)
    | none => ((id, s) :: r.1, r.2)

/-- One tick of `Overseer::run`: collect, dispatch, then the watch step —
polling the completion queue and panicking if any task handle is ready. -/
def Overseer.tick {M I : Type} [DecidableEq I] (st : Overseer M I) :
    Except PanicReason (Overseer M I × List (Event M I)) :=
  let c := collect st.subsystems
  match dispatchBatch { st with subsystems := c.1 } c.2 with
  | .error r => .error r
  | .ok (st', es) =>
    if st'.running_subsystems.any (fun b => b) then .error .subsystemFinished
    else .ok (st', es)

/-- `Overseer::run`, fuel-bounded: iterate ticks; a panic in any tick stops
the loop (`Except.ok` is returned only when the fuel runs out). -/
def Overseer.run {M I : Type} [DecidableEq I] :
    Nat → Overseer M I → Except PanicReason (Overseer M I)
  | 0, st => .ok st
  | n + 1, st =>
    match st.tick with
    | .error r => .error r
    | .ok (st', _) => Overseer.run n st'

/-! ### Helper lemmas about the dispatch primitives -/

theorem keysNodup_inj {I A : Type} {l : List (I × A)}
    (h : (l.map Prod.fst).Nodup) {p q : I × A}
    (hp : p ∈ l) (hq : q ∈ l) (hk : p.1 = q.1) : p = q := by
  induction l with
  | nil => cases hp
  | cons hd tl ih =>
    simp only [List.map_cons, List.nodup_cons] at h
    rcases List.mem_cons.1 hp with rfl | hp' <;>
      rcases List.mem_cons.1 hq with rfl | hq'
    · rfl
    · exact absurd (hk ▸ List.mem_map_of_mem Prod.fst hq') h.1
    · exact absurd (hk ▸ List.mem_map_of_mem Prod.fst hp') h.1
    · exact ih h.2 hp' hq'

theorem broadcastDeliver_events_mem {M I : Type} [DecidableEq I]
    {src : I} {m : M} {subs : List (I × OverseenSubsystem M I)}
    {e : Event M I} (he : e ∈ (broadcastDeliver src m subs).2) :
    ∃ p ∈ subs, e = Event.deliver src p.1 m ∧ src ≠ p.1 ∧
      p.2.subsystem.canRecvMsg m = true ∧ p.2.inst.isSome = true := by
  induction subs with
  | nil => simp [broadcastDeliver] at he
  | cons hd tl ih =>
    obtain ⟨id, s⟩ := hd
    by_cases hsrc : src = id
    · simp only [broadcastDeliver, if_pos hsrc] at he
      obtain ⟨p, hp, h⟩ := ih he
      exact ⟨p, List.mem_cons_of_mem _ hp, h⟩
    · by_cases hf : s.subsystem.canRecvMsg m
      · cases hi : s.inst with
        | some i =>
          simp only [broadcastDeliver, if_neg hsrc, if_pos hf, hi] at he
          rcases List.mem_cons.1 he with rfl | he'
          · exact ⟨(id, s), List.mem_cons_self _ _, rfl, hsrc, hf, by simp [hi]⟩
          · obtain ⟨p, hp, h⟩ := ih he'
            exact ⟨p, List.mem_cons_of_mem _ hp, h⟩
        | none =>
          simp only [broadcastDeliver, if_neg hsrc, if_pos hf, hi] at he
          obtain ⟨p, hp, h⟩ := ih he
          exact ⟨p, List.mem_cons_of_mem _ hp, h⟩
      · simp only [broadcastDeliver, if_neg hsrc, if_neg hf] at he
        obtain ⟨p, hp, h⟩ := ih he
        exact ⟨p, List.mem_cons_of_mem _ hp, h⟩

theorem broadcastDeliver_get_src {M I : Type} [DecidableEq I]
    (src : I) (m : M) (subs : List (I × OverseenSubsystem M I)) :
    assocGet (broadcastDeliver src m subs).1 src = assocGet subs src := by
  induction subs with
  | nil => simp [broadcastDeliver]
  | cons hd tl ih =>
    obtain ⟨id, s⟩ := hd
    by_cases hsrc : src = id
    · simp [broadcastDeliver, if_pos hsrc, assocGet, hsrc]
    · by_cases hf : s.subsystem.canRecvMsg m
      · cases hi : s.inst with
        | some i => simp [broadcastDeliver, if_neg hsrc, if_pos hf, hi, assocGet, ih]
        | none => simp [broadcastDeliver, if_neg hsrc, if_pos hf, hi, assocGet, ih]
      · simp [broadcastDeliver, if_neg hsrc, if_neg hf, assocGet, ih]

theorem broadcastDeliver_events_key {M I : Type} [DecidableEq I]
    {src : I} {m m' : M} {subs : List (I × OverseenSubsystem M I)} {t : I}
    (ht : t ∉ subs.map Prod.fst) :
    Event.deliver src t m' ∉ (broadcastDeliver src m subs).2 := by
  intro he
  obtain ⟨p, hp, hpe, -, -, -⟩ := broadcastDeliver_events_mem he
  cases hpe
  exact ht (List.mem_map_of_mem Prod.fst hp)

theorem broadcastDeliver_count {M I : Type} [DecidableEq M] [DecidableEq I]
    {src : I} {m : M} {subs : List (I × OverseenSubsystem M I)}
    (hnd : (subs.map Prod.fst).Nodup) {p : I × OverseenSubsystem M I}
    (hp : p ∈ subs) (hne : src ≠ p.1)
    (hf : p.2.subsystem.canRecvMsg m = true)
    (hi : p.2.inst.isSome = true) :
    ((broadcastDeliver src m subs).2).count (Event.deliver src p.1 m) = 1 := by
  induction subs with
  | nil => cases hp
  | cons hd tl ih =>
    obtain ⟨id, s⟩ := hd
    simp only [List.map_cons, List.nodup_cons] at hnd
    rcases List.mem_cons.1 hp with rfl | hp'
    · have hne' : ¬ src = id := hne
      have hf' : s.subsystem.canRecvMsg m = true := hf
      have hi' : s.inst.isSome = true := hi
      obtain ⟨i, hinst⟩ := Option.isSome_iff_exists.1 hi'
      simp only [broadcastDeliver, if_neg hne', hf', if_pos, hinst]
      rw [List.count_cons_self]
      have hnm : Event.deliver src id m ∉ (broadcastDeliver src m tl).2 :=
        broadcastDeliver_events_key hnd.1
      simp [List.count_eq_zero.2 hnm]
    · have hid : id ≠ p.1 := by
        intro h
        exact hnd.1 (h ▸ List.mem_map_of_mem Prod.fst hp')
      have htl := ih hnd.2 hp'
      by_cases hsrc : src = id
      · simpa only [broadcastDeliver, if_pos hsrc] using htl
      · by_cases hfh : s.subsystem.canRecvMsg m
        · cases hinst : s.inst with
          | some i =>
            simp only [broadcastDeliver, if_neg hsrc, if_pos hfh, hinst]
            rw [List.count_cons_of_ne
              (by intro hc; injection hc with h1 h2 h3; exact hid h2.symm)]
            exact htl
          | none =>
            simpa only [broadcastDeliver, if_neg hsrc, if_pos hfh, hinst] using htl
        · simpa only [broadcastDeliver, if_neg hsrc, if_neg hfh] using htl

theorem directDeliver_found {M I : Type} [DecidableEq I]
    {src t : I} {m : M} {subs : List (I × OverseenSubsystem M I)}
    {r : OverseenSubsystem M I} {i : SubsystemInstance M I}
    (h : assocGet subs t = some r) (hi : r.inst = some i) :
    (directDeliver src t m subs).2 = [Event.deliver src t m] := by
  induction subs with
  | nil => simp [assocGet] at h
  | cons hd tl ih =>
    obtain ⟨id, s⟩ := hd
    by_cases ht : t = id
    · simp only [assocGet, if_pos ht] at h
      cases h
      simp [directDeliver, if_pos ht, hi]
    · simp only [assocGet, if_neg ht] at h
      simp [directDeliver, if_neg ht, ih h]

theorem directDeliver_missing {M I : Type} [DecidableEq I]
    {src t : I} {m : M} {subs : List (I × OverseenSubsystem M I)}
    (h : assocGet subs t = none) :
    directDeliver src t m subs = (subs, []) := by
  induction subs with
  | nil => simp [directDeliver]
  | cons hd tl ih =>
    obtain ⟨id, s⟩ := hd
    by_cases ht : t = id
    · simp [assocGet, if_pos ht] at h
    · simp only [assocGet, if_neg ht] at h
      simp [directDeliver, if_neg ht, ih h]

theorem Overseer.spawn_ok_inv {M I : Type} [DecidableEq I]
    {st : Overseer M I} {s : I × Subsystem M I} {st' : Overseer M I} {i : I}
    (h : Overseer.spawn st s = .ok (st', i)) :
    st.spawnOk = true ∧ i = s.1 ∧
      st' = { st with
        subsystems := assocInsert st.subsystems s.1 ⟨s.2, some ⟨[], []⟩⟩,
        running_subsystems := st.running_subsystems ++ [s.2.taskCompleted] } := by
  by_cases hok : st.spawnOk
  · simp only [Overseer.spawn, if_pos hok, Except.ok.injEq, Prod.mk.injEq] at h
    exact ⟨hok, h.2.symm, h.1.symm⟩
  · simp [Overseer.spawn, hok] at h

theorem dispatchOne_running {M I : Type} [DecidableEq I]
    {st : Overseer M I} {src : I} {msg : OverseerMessage M I}
    {st' : Overseer M I} {es : List (Event M I)}
    (h : dispatchOne st src msg = .ok (st', es))
    (ha : st.running_subsystems.any (fun b => b) = true) :
    st'.running_subsystems.any (fun b => b) = true := by
  cases msg with
  | subsystemMessage toId m =>
    cases toId with
    | some t =>
      simp only [dispatchOne, Except.ok.injEq, Prod.mk.injEq] at h
      rw [← h.1]
      exact ha
    | none =>
      simp only [dispatchOne, Except.ok.injEq, Prod.mk.injEq] at h
      rw [← h.1]
      exact ha
  | spawnChild s =>
    simp only [dispatchOne] at h
    cases hs : st.spawn s with
    | error r => simp [hs] at h
    | ok p =>
      obtain ⟨st1, i⟩ := p
      obtain ⟨-, -, rfl⟩ := Overseer.spawn_ok_inv hs
      simp only [hs, Except.ok.injEq, Prod.mk.injEq] at h
      rw [← h.1]
      simp [List.any_append, ha]

theorem dispatchBatch_cons_inv {M I : Type} [DecidableEq I]
    {st : Overseer M I} {x : I × OverseerMessage M I}
    {t : List (I × OverseerMessage M I)} {st'' : Overseer M I}
    {E : List (Event M I)}
    (h : dispatchBatch st (x :: t) = .ok (st'', E)) :
    ∃ st' es es', dispatchOne st x.1 x.2 = .ok (st', es) ∧
      dispatchBatch st' t = .ok (st'', es') ∧ E = es ++ es' := by
  obtain ⟨src, msg⟩ := x
  simp only [dispatchBatch] at h
  cases h1 : dispatchOne st src msg with
  | error r => simp [h1] at h
  | ok p =>
    obtain ⟨st', es⟩ := p
    simp only [h1] at h
    cases h2 : dispatchBatch st' t with
    | error r => simp [h2] at h
    | ok q =>
      obtain ⟨st2, es'⟩ := q
      simp only [h2, Except.ok.injEq, Prod.mk.injEq] at h
      obtain ⟨hst, hes⟩ := h
      subst hst
      exact ⟨st', es, es', rfl, h2, hes.symm⟩

theorem dispatchBatch_running {M I : Type} [DecidableEq I]
    {st : Overseer M I} {b : List (I × OverseerMessage M I)}
    {st' : Overseer M I} {E : List (Event M I)}
    (h : dispatchBatch st b = .ok (st', E))
    (ha : st.running_subsystems.any (fun b => b) = true) :
    st'.running_subsystems.any (fun b => b) = true := by
  induction b generalizing st E with
  | nil =>
    simp only [dispatchBatch, Except.ok.injEq, Prod.mk.injEq] at h
    rw [← h.1]
    exact ha
  | cons x t ih =>
    obtain ⟨stm, es, es', h1, h2, rfl⟩ := dispatchBatch_cons_inv h
    exact ih h2 (dispatchOne_running h1 ha)

theorem dispatchBatch_append_inv {M I : Type} [DecidableEq I]
    {st : Overseer M I} {b1 b2 : List (I × OverseerMessage M I)}
    {st'' : Overseer M I} {E : List (Event M I)}
    (h : dispatchBatch st (b1 ++ b2) = .ok (st'', E)) :
    ∃ st' E1 E2, dispatchBatch st b1 = .ok (st', E1) ∧
      dispatchBatch st' b2 = .ok (st'', E2) ∧ E = E1 ++ E2 := by
  induction b1 generalizing st E with
  | nil => exact ⟨st, [], E, rfl, h, rfl⟩
  | cons x t ih =>
    rw [List.cons_append] at h
    obtain ⟨stm, es, es', h1, h2, rfl⟩ := dispatchBatch_cons_inv h
    obtain ⟨st', E1, E2, hb1, hb2, rfl⟩ := ih h2
    refine ⟨st', es ++ E1, E2, ?_, hb2, by simp⟩
    obtain ⟨src, msg⟩ := x
    simp only [dispatchBatch, h1, hb1]

theorem collect_split {M I : Type}
    {u v : List (I × OverseenSubsystem M I)} {s : I}
    {rec : OverseenSubsystem M I} {i : SubsystemInstance M I}
    (hinst : rec.inst = some i) :
    (collect (u ++ (s, rec) :: v)).2 =
      (collect u).2 ++ i.rx.map (fun e => (s, e)) ++ (collect v).2 := by
  induction u with
  | nil => simp [collect, hinst]
  | cons hd tl ih =>
    obtain ⟨id, s'⟩ := hd
    cases hi : s'.inst with
    | some j => simp [collect, hi, ih, List.append_assoc]
    | none => simp [collect, hi, ih]

theorem assocGet_mem {I A : Type} [DecidableEq I]
    {l : List (I × A)} {k : I} {v : A} (h : assocGet l k = some v) :
    (k, v) ∈ l := by
  induction l with
  | nil => simp [assocGet] at h
  | cons hd tl ih =>
    obtain ⟨k', v'⟩ := hd
    by_cases hk : k = k'
    · simp only [assocGet, if_pos hk] at h
      cases h
      cases hk
      exact List.mem_cons_self _ _
    · simp only [assocGet, if_neg hk] at h
      exact List.mem_cons_of_mem _ (ih h)

theorem assocGet_insert_self {I A : Type} [DecidableEq I]
    (l : List (I × A)) (k : I) (v : A) :
    assocGet (assocInsert l k v) k = some v := by
  induction l with
  | nil => simp [assocInsert, assocGet]
  | cons hd tl ih =>
    obtain ⟨k', v'⟩ := hd
    by_cases h : k = k'
    · simp [assocInsert, if_pos h, assocGet]
    · simp [assocInsert, if_neg h, assocGet, ih]

theorem assocGet_insert_other {I A : Type} [DecidableEq I]
    {l : List (I × A)} {k : I} {v : A} {k' : I} (h : k' ≠ k) :
    assocGet (assocInsert l k v) k' = assocGet l k' := by
  induction l with
  | nil => simp [assocInsert, assocGet, if_neg h]
  | cons hd tl ih =>
    obtain ⟨k2, v2⟩ := hd
    by_cases h2 : k = k2
    · subst h2
      simp [assocInsert, assocGet, if_neg h]
    · simp only [assocInsert, if_neg h2, assocGet]
      by_cases h3 : k' = k2
      · simp [if_pos h3]
      · simp [if_neg h3, ih]

/-! ### Concrete fixtures (over `M = Nat`, `I = Nat`) -/

/-- A worker whose filter accepts every message and whose task never
completes. -/
def subAll : Subsystem Nat Nat := ⟨fun _ => true, false⟩

/-- A worker whose filter rejects every message and whose task never
completes. -/
def subNone : Subsystem Nat Nat := ⟨fun _ => false, false⟩

/-- A freshly spawned record: live instance with empty channel queues. -/
def freshRecord (s : Subsystem Nat Nat) : OverseenSubsystem Nat Nat :=
  ⟨s, some ⟨[], []⟩⟩

/-- A supervisor holding worker 0, about to process a duplicate spawn of
id 0 requested by worker 1. -/
def stDup : Overseer Nat Nat := ⟨[(0, freshRecord subAll)], [], true, [false]⟩

/-- The state after the duplicate spawn of id 0 requested by worker 1. -/
def stDup' : Overseer Nat Nat :=
  ⟨[(0, freshRecord subAll)], [(1, [0])], true, [false, false]⟩

/-- A supervisor where parent 0 already has a child-map entry containing 1. -/
def stParent : Overseer Nat Nat :=
  ⟨[(0, freshRecord subAll)], [(0, [1])], true, [false]⟩

/-- The state after parent 0 (which already had a child-map entry) spawned
child 2: the child map gained the parent id 0, not the child id 2. -/
def stParent' : Overseer Nat Nat :=
  ⟨[(0, freshRecord subAll), (2, freshRecord subAll)], [(0, [1, 0])], true,
    [false, false]⟩

/-- Two accept-all workers, for exercising broadcast. -/
def stBc : Overseer Nat Nat :=
  ⟨[(0, freshRecord subAll), (1, freshRecord subAll)], [], true, []⟩

/-- Workers 0 and 1 accept every broadcast, worker 2 rejects every message. -/
def stFan : Overseer Nat Nat :=
  ⟨[(0, freshRecord subAll), (1, freshRecord subAll), (2, freshRecord subNone)],
    [], true, []⟩

/-- A single worker, id 5, whose filter rejects everything. -/
def stDirect : Overseer Nat Nat := ⟨[(5, freshRecord subNone)], [], true, []⟩

/-- A supervisor whose one task handle reports completion when polled. -/
def stExit : Overseer Nat Nat := ⟨[(0, freshRecord subAll)], [], true, [true]⟩

/-- Worker 0 has queued two broadcast envelopes (payloads 10 then 20);
worker 1 is an accept-all recipient. -/
def stFifo : Overseer Nat Nat :=
  ⟨[(0, ⟨subAll, some ⟨[.subsystemMessage none 10, .subsystemMessage none 20],
      []⟩⟩), (1, freshRecord subAll)], [], true, [false, false]⟩

/-- The state after one tick's collect-and-dispatch on `stFifo`: worker 0's
outbound queue is drained and worker 1 received 10 then 20. -/
def stFifoF : Overseer Nat Nat :=
  ⟨[(0, freshRecord subAll), (1, ⟨subAll, some ⟨[], [10, 20]⟩⟩)], [], true,
    [false, false]⟩

/-- A supervisor whose executor refuses to spawn. -/
def stNoExec : Overseer Nat Nat := ⟨[], [], false, []⟩

/-- A worker context whose outbound channel to the supervisor is closed. -/
def ctxClosed : SubsystemContext Nat Nat := ⟨[], [], true⟩

/-! ### Claim theorems -/

/-- C3: for every broadcast envelope (`Post` with `to = None`) emitted by a
worker with source id `s`, the routing loop never delivers the payload back
to the record whose id equals `s`: the dispatch step emits no delivery event
targeting `s`, and the record stored under `s` (in particular its inbound
channel) is left unchanged. -/
theorem broadcast_no_echo {M I : Type} [DecidableEq I]
    (st : Overseer M I) (s : I) (m : M) :
    ∃ st' es, dispatchOne st s (.subsystemMessage none m) = .ok (st', es) ∧
      (∀ m' : M, Event.deliver s s m' ∉ es) ∧
      assocGet st'.subsystems s = assocGet st.subsystems s := by
  refine ⟨_, _, rfl, ?_, ?_⟩
  · intro m' hmem
    obtain ⟨p, hp, hpe, hne, -, -⟩ := broadcastDeliver_events_mem hmem
    injection hpe with h1 h2 h3
    exact hne h2
  · exact broadcastDeliver_get_src s m st.subsystems

/-- C3 witness: the broadcast of payload 7 by worker 0 in the two-worker
state `stBc` echoes nothing back to worker 0 and leaves its record intact. -/
theorem broadcast_no_echo_witness :
    ∃ st' es,
      dispatchOne stBc 0 (.subsystemMessage none (7 : Nat)) = .ok (st', es) ∧
      (∀ m' : Nat, Event.deliver 0 0 m' ∉ es) ∧
      assocGet st'.subsystems 0 = assocGet stBc.subsystems 0 :=
  broadcast_no_echo stBc 0 7

/-- C4: a broadcast with payload `m` from source `s` delivers exactly one
copy of `m` to each record `p ≠ s` whose filter accepts `m` (and whose
instance is live, which is how every record is created), no copy to any
record whose filter rejects `m`, and every delivery event of the dispatch —
each one standing for one `m.clone()` — targets a distinct record, other
than the sender, whose filter accepted `m`. -/
theorem broadcast_fanout_filter {M I : Type} [DecidableEq M] [DecidableEq I]
    (st : Overseer M I) (s : I) (m : M)
    (hnd : (st.subsystems.map Prod.fst).Nodup) :
    ∃ st' es, dispatchOne st s (.subsystemMessage none m) = .ok (st', es) ∧
      (∀ p ∈ st.subsystems,
        (s ≠ p.1 → p.2.subsystem.canRecvMsg m = true → p.2.inst.isSome = true →
          es.count (Event.deliver s p.1 m) = 1) ∧
        (p.2.subsystem.canRecvMsg m = false →
          ∀ m' : M, Event.deliver s p.1 m' ∉ es)) ∧
      (∀ (src toId : I) (m' : M), Event.deliver src toId m' ∈ es →
        src = s ∧ m' = m ∧ toId ≠ s ∧
          ∃ q ∈ st.subsystems, q.1 = toId ∧
            q.2.subsystem.canRecvMsg m = true ∧ q.2.inst.isSome = true) := by
  refine ⟨_, _, rfl, ?_, ?_⟩
  · intro p hp
    constructor
    · intro hne hf hi
      exact broadcastDeliver_count hnd hp hne hf hi
    · intro hf m' hmem
      obtain ⟨q, hq, hqe, hqs, hqf, -⟩ := broadcastDeliver_events_mem hmem
      injection hqe with h1 h2 h3
      obtain rfl := keysNodup_inj hnd hp hq h2
      rw [hf] at hqf
      cases hqf
  · intro src toId m' hmem
    obtain ⟨q, hq, hqe, hqs, hqf, hqi⟩ := broadcastDeliver_events_mem hmem
    injection hqe with h1 h2 h3
    exact ⟨h1, h3, fun hc => hqs (hc ▸ h2), q, hq, h2.symm, hqf, hqi⟩

/-- C4 witness: in `stFan` (workers 0, 1 accept-all; worker 2 reject-all),
worker 0's broadcast of 7 is delivered exactly once to worker 1 and never to
worker 2. -/
theorem broadcast_fanout_filter_witness :
    ∃ st' es,
      dispatchOne stFan 0 (.subsystemMessage none (7 : Nat)) = .ok (st', es) ∧
      (∀ p ∈ stFan.subsystems,
        (0 ≠ p.1 → p.2.subsystem.canRecvMsg 7 = true → p.2.inst.isSome = true →
          es.count (Event.deliver 0 p.1 7) = 1) ∧
        (p.2.subsystem.canRecvMsg 7 = false →
          ∀ m' : Nat, Event.deliver 0 p.1 m' ∉ es)) ∧
      (∀ (src toId m' : Nat), Event.deliver src toId m' ∈ es →
        src = 0 ∧ m' = 7 ∧ toId ≠ 0 ∧
          ∃ q ∈ stFan.subsystems, q.1 = toId ∧
            q.2.subsystem.canRecvMsg 7 = true ∧ q.2.inst.isSome = true) :=
  broadcast_fanout_filter stFan 0 7 (by decide)

/-- C5: a direct envelope (`Post` with `to = Some t`) from source `s` (in a
state where every record has a live instance, as every record is created)
results in exactly one copy pushed to `t`'s inbound channel when a record
for `t` exists — regardless of the value of `t`'s `can_recv_msg` filter,
which the direct arm never consults — and in no event and no state change at
all when no record exists: the unknown target is silently dropped. -/
theorem direct_delivery_iff_target_known {M I : Type} [DecidableEq I]
    (st : Overseer M I) (s t : I) (m : M)
    (hinst : ∀ p ∈ st.subsystems, p.2.inst.isSome = true) :
    ∃ st' es, dispatchOne st s (.subsystemMessage (some t) m) = .ok (st', es) ∧
      ((assocGet st.subsystems t).isSome = true →
        es = [Event.deliver s t m]) ∧
      ((assocGet st.subsystems t).isSome = false → es = [] ∧ st' = st) := by
  refine ⟨_, _, rfl, ?_, ?_⟩
  · intro hsome
    obtain ⟨r, hr⟩ := Option.isSome_iff_exists.1 hsome
    have hri := hinst (t, r) (assocGet_mem hr)
    obtain ⟨i, hi⟩ := Option.isSome_iff_exists.1 hri
    exact directDeliver_found hr hi
  · intro hnone
    have h0 : assocGet st.subsystems t = none := by
      cases hg : assocGet st.subsystems t with
      | none => rfl
      | some r => rw [hg] at hnone; cases hnone
    have hmiss := @directDeliver_missing M I _ s t m st.subsystems h0
    exact ⟨by rw [hmiss], by rw [hmiss]⟩

/-- C5 witness: in `stDirect`, a direct send of 7 from worker 0 to worker 5
— whose filter rejects every message — is delivered anyway (exactly one
copy), and the same theorem instantiated at the absent id would give the
silent drop. -/
theorem direct_delivery_iff_target_known_witness :
    ∃ st' es,
      dispatchOne stDirect 0 (.subsystemMessage (some 5) (7 : Nat)) =
        .ok (st', es) ∧
      ((assocGet stDirect.subsystems 5).isSome = true →
        es = [Event.deliver 0 5 7]) ∧
      ((assocGet stDirect.subsystems 5).isSome = false →
        es = [] ∧ st' = stDirect) :=
  direct_delivery_iff_target_known stDirect 0 5 7 (by decide)

/-- C1 counterexample: in `stDup` a record for id 0 already exists, yet the
worker-originated spawn of a second subsystem under id 0 is not rejected:
the supervisor replaces the record, pushes a new task handle, and fulfils
the spawn reply with `Ok(0)` — not with an error — and does not panic. -/
theorem duplicate_spawn_ok_reply :
    dispatchOne stDup 1 (.spawnChild (0, subAll)) =
      .ok (stDup', [Event.reply 1 (.ok 0)]) := rfl

/-- C1 amended: a spawn attempt with an existing identifier is not rejected.
Whenever the executor can spawn, dispatching a worker-originated
`SpawnChild` envelope — including one whose id already has a record in the
subsystem table — succeeds without panicking and fulfils the spawn reply
with `Ok(id)`; the new record silently replaces the existing one. -/
theorem duplicate_spawn_accepted {M I : Type} [DecidableEq I]
    (st : Overseer M I) (p : I) (s : I × Subsystem M I)
    (hok : st.spawnOk = true)
    (hdup : (assocGet st.subsystems s.1).isSome = true) :
    ∃ st', dispatchOne st p (.spawnChild s) =
      .ok (st', [Event.reply p (.ok s.1)]) := by
  cases hc : assocGet st.id_to_children p with
  | none =>
    refine ⟨{ st with
        subsystems := assocInsert st.subsystems s.1 ⟨s.2, some ⟨[], []⟩⟩,
        running_subsystems := st.running_subsystems ++ [s.2.taskCompleted],
        id_to_children :=
          assocInsert st.id_to_children p (hsInsert [] s.1) }, ?_⟩
    simp only [dispatchOne, Overseer.spawn, if_pos hok, hc]
  | some v =>
    refine ⟨{ st with
        subsystems := assocInsert st.subsystems s.1 ⟨s.2, some ⟨[], []⟩⟩,
        running_subsystems := st.running_subsystems ++ [s.2.taskCompleted],
        id_to_children :=
          assocUpdate st.id_to_children p (fun w => hsInsert w p) }, ?_⟩
    simp only [dispatchOne, Overseer.spawn, if_pos hok, hc]

/-- C1 amended, witness: the duplicate spawn of id 0 in `stDup` (where id 0
is present: `assocGet` finds it) is accepted with reply `Ok(0)`. -/
theorem duplicate_spawn_accepted_witness :
    (assocGet stDup.subsystems 0).isSome = true ∧
    ∃ st', dispatchOne stDup 1 (.spawnChild (0, subAll)) =
      .ok (st', [Event.reply 1 (.ok 0)]) :=
  ⟨by decide, duplicate_spawn_accepted stDup 1 (0, subAll) rfl (by decide)⟩

/-- C10: the internal spawn operation always returns `Ok` with the given id
when the executor can spawn — also when the id already has a record — and
afterwards the table maps the id to the freshly created record (so an
existing record is overwritten, not kept), while every other key is
untouched. -/
theorem spawn_replaces_record {M I : Type} [DecidableEq I]
    (st : Overseer M I) (s : I × Subsystem M I) (hok : st.spawnOk = true) :
    ∃ st', Overseer.spawn st s = .ok (st', s.1) ∧
      assocGet st'.subsystems s.1 = some ⟨s.2, some ⟨[], []⟩⟩ ∧
      (∀ k, k ≠ s.1 → assocGet st'.subsystems k = assocGet st.subsystems k) := by
  refine ⟨{ st with
      subsystems := assocInsert st.subsystems s.1 ⟨s.2, some ⟨[], []⟩⟩,
      running_subsystems := st.running_subsystems ++ [s.2.taskCompleted] },
    ?_, ?_, ?_⟩
  · simp only [Overseer.spawn, if_pos hok]
  · exact assocGet_insert_self st.subsystems s.1 ⟨s.2, some ⟨[], []⟩⟩
  · intro k hk
    exact assocGet_insert_other hk

/-- C10 witness: spawning `(0, subNone)` over `stDup`, whose table already
holds a record for 0, returns `Ok 0` and the table afterwards holds the new
(reject-all) record under 0. -/
theorem spawn_replaces_record_witness :
    ∃ st', Overseer.spawn stDup (0, subNone) = .ok (st', 0) ∧
      assocGet st'.subsystems 0 = some ⟨subNone, some ⟨[], []⟩⟩ ∧
      (∀ k, k ≠ 0 → assocGet st'.subsystems k = assocGet stDup.subsystems k) :=
  spawn_replaces_record stDup (0, subNone) rfl

/-- C2 (code bug), evaluated at the failing input: in `stParent`, where
parent 0 already has the child-map entry `{1}`, the worker-originated spawn
of child 2 succeeds — the reply is fulfilled with `Ok(2)` — but the routing
loop inserts the parent id `msg.0 = 0` into `children[0]` instead of the
child id, so `children[0] = {1, 0}` does not contain the new child 2. -/
theorem child_map_records_parent_bug :
    dispatchOne stParent 0 (.spawnChild (2, subAll)) =
      .ok (stParent', [Event.reply 0 (.ok 2)]) ∧
    assocGet stParent'.id_to_children 0 = some [1, 0] ∧
    2 ∉ (assocGet stParent'.id_to_children 0).getD [] :=
  ⟨rfl, rfl, by decide⟩

/-- C6: in every tick, when the watch step's poll of the completion queue
observes a completed worker task (some handle in `running_subsystems` is
ready), the tick ends in a panic — dispatch never removes a completed
handle, so the watch at the end of the very same tick fires (or the tick
already panicked in dispatch).  Consequently the routing loop panics within
one tick and never continues: `run` with any positive fuel ends in a panic
rather than completing its iterations. -/
theorem worker_exit_fatal {M I : Type} [DecidableEq I] (st : Overseer M I)
    (h : st.running_subsystems.any (fun b => b) = true) :
    (∃ r, Overseer.tick st = .error r) ∧
    (∀ n : Nat, ∃ r, Overseer.run (n + 1) st = .error r) := by
  have htick : ∃ r, Overseer.tick st = .error r := by
    simp only [Overseer.tick]
    cases hd : dispatchBatch { st with subsystems := (collect st.subsystems).1 }
        (collect st.subsystems).2 with
    | error r => exact ⟨r, rfl⟩
    | ok p =>
      obtain ⟨st', es⟩ := p
      have ha : st'.running_subsystems.any (fun b => b) = true :=
        dispatchBatch_running hd h
      exact ⟨.subsystemFinished, by simp [ha]⟩
  refine ⟨htick, fun n => ?_⟩
  obtain ⟨r, hr⟩ := htick
  exact ⟨r, by simp only [Overseer.run, hr]⟩

/-- C6 witness: in `stExit`, whose single task handle reports completion,
the tick panics and so does `run` with fuel 1. -/
theorem worker_exit_fatal_witness :
    (∃ r, Overseer.tick stExit = .error r) ∧
    (∀ n : Nat, ∃ r, Overseer.run (n + 1) stExit = .error r) :=
  worker_exit_fatal stExit (by decide)

/-- C8 counterexample: with the executor refusing to spawn (`stNoExec`), a
runtime child spawn requested by worker 0 makes the dispatch step panic
(the `expect` in `Overseer::spawn`); the failure is not surfaced to the
requesting worker through the spawn reply — no reply event is ever
produced. -/
theorem executor_failure_panics_runtime_spawn :
    dispatchOne stNoExec 0 (.spawnChild (1, subAll)) =
      .error .executorSpawnFailure := rfl

/-- C8 amended: when the external executor cannot spawn, every spawn —
runtime child spawns included — is treated as unrecoverable: the dispatch of
the `SpawnChild` envelope panics via the `expect` in `Overseer::spawn`, and
nothing is sent on the reply channel. -/
theorem executor_failure_unrecoverable {M I : Type} [DecidableEq I]
    (st : Overseer M I) (p : I) (s : I × Subsystem M I)
    (h : st.spawnOk = false) :
    dispatchOne st p (.spawnChild s) = .error .executorSpawnFailure := by
  simp [dispatchOne, Overseer.spawn, h]

/-- C8 amended, witness. -/
theorem executor_failure_unrecoverable_witness :
    dispatchOne stNoExec 3 (.spawnChild (2, subNone)) =
      .error .executorSpawnFailure :=
  executor_failure_unrecoverable stNoExec 3 (2, subNone) rfl

/-- C9: on the worker context, a closed channel on a send path is absorbed:
the underlying channel send does fail (`mpscSend` returns the closed error),
yet `send_msg` and `send_msg_to` return normally with the context unchanged
— the error is discarded, never propagated — while `spawn` is the one
exception: when the spawn reply never arrives (the reply sender was
dropped, `reply = none`), it returns the supervisor-gone error
`SubsystemError` to the caller. -/
theorem closed_sends_absorbed_spawn_reports {M I : Type}
    (ctx : SubsystemContext M I) (msg : M) (toId : I) (s : I × Subsystem M I)
    (h : ctx.txClosed = true) :
    mpscSend ctx.txClosed ctx.tx (OverseerMessage.subsystemMessage none msg) =
      .error SendError.closed ∧
    ctx.send_msg msg = ctx ∧
    ctx.send_msg_to toId msg = ctx ∧
    (ctx.spawn s none).2 = .error SubsystemError.mk := by
  refine ⟨?_, ?_, ?_, rfl⟩ <;>
    simp [mpscSend, SubsystemContext.send_msg, SubsystemContext.send_msg_to, h]

/-- C9 witness: on `ctxClosed` (outbound channel closed) the sends are
absorbed and `spawn` with a dropped reply sender reports the error. -/
theorem closed_sends_absorbed_spawn_reports_witness :
    mpscSend ctxClosed.txClosed ctxClosed.tx
      (OverseerMessage.subsystemMessage none (7 : Nat)) =
      .error SendError.closed ∧
    ctxClosed.send_msg 7 = ctxClosed ∧
    ctxClosed.send_msg_to 4 7 = ctxClosed ∧
    (ctxClosed.spawn (1, subAll) none).2 = .error SubsystemError.mk :=
  closed_sends_absorbed_spawn_reports ctxClosed 7 4 (1, subAll) rfl

/-- C7: per-source FIFO.  When worker `s`'s outbound queue holds `e1` before
`e2`, the collect step of a tick puts `(s, e1)` before `(s, e2)` in the
batch (each worker's queue is drained front-to-back into the batch), and
the actual dispatch of that batch — starting from the actual post-collect
state and ending in the hypothesised `(stF, E)` — decomposes into the
dispatch of the batch prefix (yielding `E1` and state `st1`), then of `e1`
itself (yielding its event segment `seg1`), then of the middle (yielding
`E2`), then of `e2` (yielding `seg2`), then of the remainder (yielding `E3`
and `stF`), with `E = E1 ++ seg1 ++ E2 ++ seg2 ++ E3`.  `dispatchBatch` and
`dispatchOne` are functions, so each intermediate state and segment is
uniquely determined by this chain: `seg1` and `seg2` are exactly the events
the tick produced for `e1` and `e2`, and `seg1` sits strictly before `seg2`
in `E`.  Hence for any recipient `r` targeted by both, `r`'s inbound channel
receives the corresponding payloads in emission order. -/
theorem per_source_fifo {M I : Type} [DecidableEq I]
    (st : Overseer M I) (u v : List (I × OverseenSubsystem M I)) (s : I)
    (rec : OverseenSubsystem M I) (i : SubsystemInstance M I)
    (q1 q2 q3 : List (OverseerMessage M I)) (e1 e2 : OverseerMessage M I)
    (stF : Overseer M I) (E : List (Event M I))
    (hsubs : st.subsystems = u ++ (s, rec) :: v)
    (hins : rec.inst = some i)
    (hrx : i.rx = q1 ++ e1 :: q2 ++ e2 :: q3)
    (hd : dispatchBatch { st with subsystems := (collect st.subsystems).1 }
        (collect st.subsystems).2 = .ok (stF, E)) :
    ∃ (E1 seg1 E2 seg2 E3 : List (Event M I)) (st1 st2 st3 st4 : Overseer M I),
      (collect st.subsystems).2 =
        ((collect u).2 ++ q1.map (fun e => (s, e))) ++
          (s, e1) :: (q2.map (fun e => (s, e)) ++
            (s, e2) :: (q3.map (fun e => (s, e)) ++ (collect v).2)) ∧
      dispatchBatch { st with subsystems := (collect st.subsystems).1 }
          ((collect u).2 ++ q1.map (fun e => (s, e))) = .ok (st1, E1) ∧
      dispatchOne st1 s e1 = .ok (st2, seg1) ∧
      dispatchBatch st2 (q2.map (fun e => (s, e))) = .ok (st3, E2) ∧
      dispatchOne st3 s e2 = .ok (st4, seg2) ∧
      dispatchBatch st4 (q3.map (fun e => (s, e)) ++ (collect v).2) =
        .ok (stF, E3) ∧
      E = E1 ++ seg1 ++ E2 ++ seg2 ++ E3 ∧
      (∀ (r : I) (m1 m2 : M),
        Event.deliver s r m1 ∈ seg1 → Event.deliver s r m2 ∈ seg2 →
        ∃ F1 F2 F3, E =
          F1 ++ Event.deliver s r m1 :: (F2 ++ Event.deliver s r m2 :: F3)) := by
  have hbatch : (collect st.subsystems).2 =
      ((collect u).2 ++ q1.map (fun e => (s, e))) ++
        (s, e1) :: (q2.map (fun e => (s, e)) ++
          (s, e2) :: (q3.map (fun e => (s, e)) ++ (collect v).2)) := by
    rw [hsubs, collect_split hins, hrx]
    simp [List.append_assoc]
  rw [hbatch] at hd
  obtain ⟨stA, E1, Erest, hB0, hrest, rfl⟩ := dispatchBatch_append_inv hd
  obtain ⟨stB, seg1, Erest2, h1, hrest2, rfl⟩ := dispatchBatch_cons_inv hrest
  obtain ⟨stC, E2, Erest3, hB1, hrest3, rfl⟩ := dispatchBatch_append_inv hrest2
  obtain ⟨stD, seg2, E3, h2, hrest4, rfl⟩ := dispatchBatch_cons_inv hrest3
  refine ⟨E1, seg1, E2, seg2, E3, stA, stB, stC, stD,
    hbatch, hB0, h1, hB1, h2, hrest4, by simp, ?_⟩
  intro r m1 m2 hm1 hm2
  obtain ⟨A, B, hseg1⟩ := List.append_of_mem hm1
  obtain ⟨C, D, hseg2⟩ := List.append_of_mem hm2
  subst hseg1
  subst hseg2
  exact ⟨E1 ++ A, B ++ E2 ++ C, D ++ E3, by simp⟩

/-- C7 witness: in `stFifo`, worker 0's queued broadcasts 10 then 20 are
collected in that order into the batch and dispatched through the chained
decomposition, so both are delivered to worker 1 in that order within one
tick (the batch segments around the two envelopes are all empty here). -/
theorem per_source_fifo_witness :
    ∃ (E1 seg1 E2 seg2 E3 : List (Event Nat Nat))
      (st1 st2 st3 st4 : Overseer Nat Nat),
      (collect stFifo.subsystems).2 =
        [(0, OverseerMessage.subsystemMessage none 10),
          (0, OverseerMessage.subsystemMessage none 20)] ∧
      dispatchBatch { stFifo with subsystems := (collect stFifo.subsystems).1 }
          [] = .ok (st1, E1) ∧
      dispatchOne st1 0 (.subsystemMessage none 10) = .ok (st2, seg1) ∧
      dispatchBatch st2 [] = .ok (st3, E2) ∧
      dispatchOne st3 0 (.subsystemMessage none 20) = .ok (st4, seg2) ∧
      dispatchBatch st4 [] = .ok (stFifoF, E3) ∧
      [Event.deliver 0 1 10, Event.deliver 0 1 20] =
        E1 ++ seg1 ++ E2 ++ seg2 ++ E3 ∧
      (∀ (r m1 m2 : Nat),
        Event.deliver 0 r m1 ∈ seg1 → Event.deliver 0 r m2 ∈ seg2 →
        ∃ F1 F2 F3, [Event.deliver 0 1 10, Event.deliver 0 1 20] =
          F1 ++ Event.deliver 0 r m1 :: (F2 ++ Event.deliver 0 r m2 :: F3)) :=
  per_source_fifo stFifo [] [(1, freshRecord subAll)] 0
    ⟨subAll, some ⟨[.subsystemMessage none 10, .subsystemMessage none 20], []⟩⟩
    ⟨[.subsystemMessage none 10, .subsystemMessage none 20], []⟩
    [] [] [] (.subsystemMessage none 10) (.subsystemMessage none 20)
    stFifoF [Event.deliver 0 1 10, Event.deliver 0 1 20]
    rfl rfl rfl rfl
